/-
Verification of the frame handoff pipeline of ban-shadow.

Shallow embedding of src/capture.rs (zero-copy producer: `Capturer`,
`SharedData`, `ensure_shared_texture`, `on_frame_arrived`) and of
src/app.rs (consumer: `App::render`, `App::resize`).

Machine integers (u32, u64, usize) are modelled as Nat: no operation in the
modelled code can overflow at realistic screen dimensions and no claim
concerns wrap-around behaviour.
-/
import Mathlib

set_option autoImplicit false

/-- Mirrors windows_capture ColorFormat (src/capture.rs line 15). -/
inductive ColorFormat
  | Rgba16F
  | Rgba8
  | Bgra8
deriving DecidableEq, Repr

/-- Mirrors the DXGI_FORMAT values used in src/capture.rs lines 8-11. -/
inductive DXGIFormat
  | R16G16B16A16Float
  | R8G8B8A8Unorm
  | B8G8R8A8Unorm
deriving DecidableEq, Repr

/-- Mirrors dxgi_format_from_color, src/capture.rs lines 148-154. -/
def dxgi_format_from_color : ColorFormat → DXGIFormat
  | .Rgba16F => .R16G16B16A16Float
  | .Rgba8 => .R8G8B8A8Unorm
  | .Bgra8 => .B8G8R8A8Unorm

/-- A delivered capture frame: the parts of windows_capture Frame that
src/capture.rs reads (frame.width(), frame.height(), frame.color_format()).
The raw texture contents live on the GPU and are not part of the slot
state. -/
structure Frame where
  width : Nat
  height : Nat
  color_format : ColorFormat
deriving DecidableEq, Repr

/-- The two devices that can call AcquireSync on a keyed mutex: the capture
producer device and the render consumer device. -/
inductive Side
  | producer
  | consumer
deriving DecidableEq, Repr

/-- State of an IDXGIKeyedMutex: the key it was last released with (a fresh
mutex is acquirable with key 0) and which device currently holds it.
AcquireSync with timeout 0 succeeds exactly when the mutex is not held and
the pending key matches the requested key; ReleaseSync stores the release
key for the next acquirer. The Side argument of acquireSync records which
device performs the call. -/
structure KeyedMutex where
  pending : Nat
  holder : Option Side
deriving DecidableEq, Repr

/-- A freshly created keyed mutex: released, acquirable with key 0. -/
def KeyedMutex.fresh : KeyedMutex := ⟨0, none⟩

/-- Non-blocking AcquireSync(key, 0): some updated mutex on success, none on
failure (WAIT_TIMEOUT). -/
def KeyedMutex.acquireSync (km : KeyedMutex) (s : Side) (key : Nat) : Option KeyedMutex :=
  if km.holder = none ∧ km.pending = key then some ⟨key, some s⟩ else none

/-- ReleaseSync(key): the holder releases, and the stored key becomes the
one the next acquirer must use. -/
def KeyedMutex.releaseSync (km : KeyedMutex) (key : Nat) : KeyedMutex :=
  let _ := km
  ⟨key, none⟩

/-- Mirrors SharedData, src/capture.rs lines 25-31, the shared frame slot
(the contents of the Arc-Mutex CaptureBuffer; each read or write of it in
the source happens under the lock, so each is one atomic step here).
Handles are modelled as Nat identifiers.

The `buffer` field is the copy-strategy payload: src/app.rs App::render
reads and swaps `shared.buffer`, but the SharedData declaration in
src/capture.rs has no such field and the zero-copy producer never touches
it. Modelled from the spec: the copy-strategy `pixels` byte sequence of
section 3 (tightly packed, 4 bytes per pixel). -/
structure SharedData where
  handle : Option Nat
  width : Nat
  height : Nat
  frame_id : Nat
  buffer : List Nat
deriving DecidableEq, Repr

/-- SharedData::default(): the slot before any publication. -/
def slotInit : SharedData := ⟨none, 0, 0, 0, []⟩

/-- An ID3D11Texture2D created by the producer: its exported shared handle
(= its identifier) and the descriptor fields that vary
(src/capture.rs lines 104-118; MipLevels, ArraySize, usage and flag fields
are constant in the source). -/
structure Texture2D where
  id : Nat
  width : Nat
  height : Nat
  format : DXGIFormat
deriving DecidableEq, Repr

/-- Mirrors Capturer, src/capture.rs lines 33-41. The keyed mutex of the
current shared texture is held by value: in the shipped source no other
component ever touches it (App::render in src/app.rs has no keyed-mutex
code), so its state is private to the producer. next_texture_id models the
allocation of fresh textures and their exported handles. -/
structure Capturer where
  next_texture_id : Nat
  shared_texture : Option Texture2D
  shared_mutex : Option KeyedMutex
  shared_size : Nat × Nat
  current_frame_id : Nat
deriving DecidableEq, Repr

/-- Capturer::new (src/capture.rs lines 47-58): no texture, no mutex,
size (0,0), frame counter 0. -/
def Capturer.init : Capturer := ⟨1, none, none, (0, 0), 0⟩

/-- Which critical section performed a slot write: the resolution-change
publication inside ensure_shared_texture (lines 132-138) or the frame_id
publication at the end of on_frame_arrived (lines 86-87). -/
inductive WriteKind
  | resetPub
  | framePub
deriving DecidableEq, Repr

/-- One slot write: its kind and the full slot value it left behind. The
slot lock is released between writes, so the consumer can observe the slot
exactly at the boundaries of this write history. -/
structure SlotWrite where
  kind : WriteKind
  slot : SharedData
deriving DecidableEq, Repr

/-- Boolean test used to filter the frame_id publications of a history. -/
def SlotWrite.isFramePub (w : SlotWrite) : Bool :=
  match w.kind with
  | .framePub => true
  | .resetPub => false

/-- Mirrors Capturer::ensure_shared_texture, src/capture.rs lines 93-145.
createOk models whether the CreateTexture2D / cast / GetSharedHandle
sequence succeeds (lines 120-130); on failure the error propagates.
Returns the updated producer state, the updated slot, and the list of slot
writes performed (empty, or the single resolution-change publication). -/
def Capturer.ensure_shared_texture (createOk : Bool) (c : Capturer) (slot : SharedData)
    (f : Frame) : Except Unit (Capturer × SharedData × List SlotWrite) :=
  if c.shared_texture.isSome ∧ c.shared_size = (f.width, f.height) then
    .ok (c, slot, [])
  else if createOk then
    let texture : Texture2D :=
      ⟨c.next_texture_id, f.width, f.height, dxgi_format_from_color f.color_format⟩
    let slot1 : SharedData :=
      { slot with handle := some texture.id, width := f.width, height := f.height,
                  frame_id := 0 }
    let c1 : Capturer :=
      { c with next_texture_id := c.next_texture_id + 1,
               shared_texture := some texture,
               shared_mutex := some KeyedMutex.fresh,
               shared_size := (f.width, f.height) }
    .ok (c1, slot1, [⟨.resetPub, slot1⟩])
  else
    .error ()

/-- Mirrors Capturer::on_frame_arrived, src/capture.rs lines 60-89.
The CopyResource call (lines 78-81) copies frame pixels between GPU
textures and changes none of the modelled state. -/
def Capturer.on_frame_arrived (createOk : Bool) (c : Capturer) (slot : SharedData)
    (f : Frame) : Except Unit (Capturer × SharedData × List SlotWrite) :=
  match Capturer.ensure_shared_texture createOk c slot f with
  | .error e => .error e
  | .ok (c1, slot1, ws) =>
    match c1.shared_texture with
    | none => .ok (c1, slot1, ws)
    | some _shared_texture =>
      match c1.shared_mutex with
      | none => .ok (c1, slot1, ws)
      | some shared_mutex =>
        match shared_mutex.acquireSync .producer 0 with
        | none => .ok (c1, slot1, ws)
        | some km1 =>
          let km2 := km1.releaseSync 1
          let cur := c1.current_frame_id + 1
          let c2 : Capturer := { c1 with shared_mutex := some km2, current_frame_id := cur }
          let slot2 : SharedData := { slot1 with frame_id := cur }
          .ok (c2, slot2, ws ++ [⟨.framePub, slot2⟩])

/-- Producer-side system state: the capture handler plus the shared slot. -/
structure ProdState where
  cap : Capturer
  slot : SharedData
deriving DecidableEq, Repr

/-- The state right after startup: Capturer::new and SharedData::default. -/
def initProd : ProdState := ⟨Capturer.init, slotInit⟩

/-- One delivered frame, tagged with whether resource creation would
succeed on it. An erroring call performs no slot write and leaves the
state unchanged; per the error design the pipeline keeps running on
subsequent frames with the previous valid state. -/
def stepFrame (s : ProdState) (input : Bool × Frame) : ProdState × List SlotWrite :=
  match Capturer.on_frame_arrived input.1 s.cap s.slot input.2 with
  | .ok (c, sl, ws) => (⟨c, sl⟩, ws)
  | .error _ => (s, [])

/-- Run a sequence of delivered frames, collecting the full history of
slot writes in order. -/
def runFrames : ProdState → List (Bool × Frame) → ProdState × List SlotWrite
  | s, [] => (s, [])
  | s, i :: rest =>
    let r1 := stepFrame s i
    let r2 := runFrames r1.1 rest
    (r2.1, r1.2 ++ r2.2)

/-- A 100x100 BGRA frame. -/
def f100 : Frame := ⟨100, 100, ColorFormat.Bgra8⟩

/-- A 200x150 BGRA frame: a capture-resolution change after f100. -/
def f200 : Frame := ⟨200, 150, ColorFormat.Bgra8⟩

/-- Demonstration input: one frame, then a resolution change, all resource
creation succeeding. -/
def demoFrames : List (Bool × Frame) := [(true, f100), (true, f200)]

/-- Producer state after one successfully handled 100x100 frame from
startup: texture 1 allocated, keyed mutex released with key 1, internal
counter 1. -/
def capAfterOne : Capturer :=
  ⟨2, some ⟨1, 100, 100, DXGIFormat.B8G8R8A8Unorm⟩, some ⟨1, none⟩, (100, 100), 1⟩

/-- Slot contents after one successfully handled 100x100 frame. -/
def slotAfterOne : SharedData := ⟨some 1, 100, 100, 1, []⟩

/-- Relation between successive slot writes that the producer actually
guarantees: the later write is a resolution-change reset, or it carries a
strictly larger version. -/
def histP (a b : SlotWrite) : Prop :=
  b.kind = WriteKind.resetPub ∨ a.slot.frame_id < b.slot.frame_id

instance (a b : SlotWrite) : Decidable (histP a b) := by
  unfold histP; infer_instance

example : (runFrames initProd demoFrames).2.map (fun w => w.slot.frame_id) = [0, 1, 0, 2] := by
  decide

/-- Render-loop state: the fields of App (src/app.rs lines 26-41) that the
handoff, resize and render logic touches. The wgpu Surface, Texture and
BindGroup objects are represented by their size-relevant data plus a
generation counter that is bumped each time the source calls the
corresponding create or configure function, so recreation is observable. -/
structure App where
  config_width : Nat
  config_height : Nat
  size_w : Nat
  size_h : Nat
  surface_gen : Nat
  texture_gen : Nat
  bind_group_gen : Nat
  texture_w : Nat
  texture_h : Nat
  last_frame_id : Nat
  local_buffer : List Nat
deriving DecidableEq, Repr

/-- App::new (src/app.rs lines 44-196) for a window of the given inner
size: config and overlay texture sized to the window, empty local buffer,
last_frame_id 0. -/
def App.init (w h : Nat) : App :=
  { config_width := w, config_height := h, size_w := w, size_h := h,
    surface_gen := 0, texture_gen := 0, bind_group_gen := 0,
    texture_w := w, texture_h := h, last_frame_id := 0, local_buffer := [] }

/-- Vec::resize(n, 0): truncate to n elements or pad with zeros up to n. -/
def listResize (l : List Nat) (n : Nat) : List Nat :=
  if n ≤ l.length then l.take n else l ++ List.replicate (n - l.length) 0

/-- Observable GPU effects of one App::render call: whether
queue.write_texture ran (the upload) and whether the draw and present ran. -/
structure RenderOutcome where
  uploaded : Bool
  presented : Bool
deriving DecidableEq, Repr

/-- Mirrors App::render, src/app.rs lines 251-318. The block at lines
253-262 runs under the slot lock: if a newer frame is available and the
slot buffer is nonempty, resize the local buffer to the slot buffer length,
swap the two buffers, and record the consumed frame_id. Then, outside the
lock, skip the tick if the local buffer length does not match
size.width * size.height * 4 (line 263-266); otherwise upload the local
buffer and draw and present the fullscreen triangle. -/
def App.render (a : App) (slot : SharedData) : App × SharedData × RenderOutcome :=
  let st :=
    if a.last_frame_id < slot.frame_id ∧ slot.buffer ≠ [] then
      let lb :=
        if a.local_buffer.length ≠ slot.buffer.length then
          listResize a.local_buffer slot.buffer.length
        else
          a.local_buffer
      ({ a with local_buffer := slot.buffer, last_frame_id := slot.frame_id },
       { slot with buffer := lb })
    else
      (a, slot)
  let expected := st.1.size_w * st.1.size_h * 4
  if st.1.local_buffer.length ≠ expected then
    (st.1, st.2, ⟨false, false⟩)
  else
    (st.1, st.2, ⟨true, true⟩)

/-- Mirrors App::resize, src/app.rs lines 198-249: ignore a resize with a
zero dimension; otherwise store the new size, reconfigure the surface, and
recreate the overlay texture and its bind group at the new size. -/
def App.resize (a : App) (w h : Nat) : App :=
  if 0 < w ∧ 0 < h then
    { a with size_w := w, size_h := h, config_width := w, config_height := h,
             surface_gen := a.surface_gen + 1,
             texture_w := w, texture_h := h, texture_gen := a.texture_gen + 1,
             bind_group_gen := a.bind_group_gen + 1 }
  else
    a

/-- Modelled from the spec: the copy-strategy publish operation of
section 4.1 and section 4.2 is not present in src/ (src/app.rs reads
`shared.buffer`, but no producer in src/ writes it). Per the spec, publish
replaces the slot payload and dimensions and increments the version, all in
one critical section; the swap with the adapter scratch buffer leaves the
slot holding the new bytes. -/
def publishCopy (slot : SharedData) (bytes : List Nat) (w h : Nat) : SharedData :=
  { slot with buffer := bytes, width := w, height := h, frame_id := slot.frame_id + 1 }

/-- One operation of the copy-strategy interleaving: a producer publication
or a consumer redraw tick. -/
inductive CopyOp
  | publish (bytes : List Nat) (w : Nat) (h : Nat)
  | consume
deriving Repr

/-- A publication is well formed when its payload is the tightly packed
4-bytes-per-pixel image of the advertised dimensions (spec section 3). -/
def CopyOp.wf : CopyOp → Bool
  | .publish bytes w h => bytes.length == w * h * 4
  | .consume => true

/-- Every operation of the interleaving is well formed. -/
def copyWF (ops : List CopyOp) : Bool := ops.all CopyOp.wf

/-- Execute one interleaving operation on the consumer and slot state. -/
def copyStep (st : App × SharedData) : CopyOp → App × SharedData
  | .publish bytes w h => (st.1, publishCopy st.2 bytes w h)
  | .consume =>
    let r := st.1.render st.2
    (r.1, r.2.1)

/-- Execute an interleaving of publications and consumer ticks. -/
def copyRun : App × SharedData → List CopyOp → App × SharedData
  | st, [] => st
  | st, op :: ops => copyRun (copyStep st op) ops

/-
Zero-copy interleaving model. The producer side is src/capture.rs
on_frame_arrived split at its atomic boundaries (each slot critical
section and each keyed-mutex call is one step); the consumer side is the
zero-copy render tick, which is not present in src/ (src/app.rs render has
no keyed-mutex code) and is modelled from the spec, section 4.3 step 5.
Keyed mutexes here are shared objects, kept in a table keyed by the id of
the texture they guard, since both devices operate on the same mutex.
-/

/-- Producer state for the zero-copy interleaving model: Capturer with its
current keyed mutex named by texture id (the mutex object itself lives in
the shared table). -/
structure ZCapturer where
  next_texture_id : Nat
  shared_texture : Option Texture2D
  shared_mutex_id : Option Nat
  shared_size : Nat × Nat
  current_frame_id : Nat
deriving DecidableEq, Repr

/-- Modelled from the spec: consumer-local zero-copy state (section 3
RenderFrameState and section 4.3 step 5): the last consumed version and the
currently imported (bound) shared texture handle with its dimensions. -/
structure ZConsumer where
  last_frame_id : Nat
  bound_handle : Option Nat
  bound_size : Nat × Nat
deriving DecidableEq, Repr

/-- Producer control point inside one on_frame_arrived call:
idle, about to run ensure_shared_texture, about to AcquireSync(0, 0),
holding the mutex (about to CopyResource and ReleaseSync(1)), or about to
publish the new frame_id. -/
inductive PPhase
  | idle
  | ensure (f : Frame) (createOk : Bool)
  | acq
  | hold
  | pub
deriving DecidableEq, Repr

/-- Consumer control point inside one redraw tick: idle, about to read the
slot, about to AcquireSync(1, 0), or holding the mutex (about to draw,
ReleaseSync(0) and record the consumed version). -/
inductive CPhase
  | idle
  | read
  | acq (fid : Nat)
  | hold (fid : Nat)
deriving DecidableEq, Repr

/-- A logged keyed-mutex call: which device, whether it was an AcquireSync
attempt (true) or a ReleaseSync (false), and the key used. -/
structure MutexOp where
  side : Side
  isAcquire : Bool
  key : Nat
deriving DecidableEq, Repr

/-- Whole-system state of the zero-copy model. -/
structure ZWorld where
  cap : ZCapturer
  slot : SharedData
  textures : List Texture2D
  mutexes : List (Nat × KeyedMutex)
  pphase : PPhase
  cphase : CPhase
  cons : ZConsumer
  log : List MutexOp
deriving DecidableEq, Repr

/-- Look up the keyed mutex guarding the texture with the given id. -/
def kmLookup : List (Nat × KeyedMutex) → Nat → Option KeyedMutex
  | [], _ => none
  | p :: ps, id => if p.1 = id then some p.2 else kmLookup ps id

/-- Store an updated keyed-mutex state back into the table. -/
def kmSet : List (Nat × KeyedMutex) → Nat → KeyedMutex → List (Nat × KeyedMutex)
  | [], _, _ => []
  | p :: ps, id, km => if p.1 = id then (id, km) :: kmSet ps id km else p :: kmSet ps id km

/-- One atomic producer step, by phase: ensure_shared_texture (with its
resolution-change publication), the AcquireSync(0, 0) attempt, the
CopyResource plus ReleaseSync(1), and the frame_id publication
(src/capture.rs lines 60-89 split at its atomic boundaries). -/
def zProducerStep (w : ZWorld) : ZWorld :=
  match w.pphase with
  | .idle => w
  | .ensure f createOk =>
    if w.cap.shared_texture.isSome ∧ w.cap.shared_size = (f.width, f.height) then
      { w with pphase := .acq }
    else if createOk then
      let t : Texture2D :=
        ⟨w.cap.next_texture_id, f.width, f.height, dxgi_format_from_color f.color_format⟩
      let cap1 : ZCapturer :=
        { w.cap with next_texture_id := w.cap.next_texture_id + 1,
                     shared_texture := some t, shared_mutex_id := some t.id,
                     shared_size := (f.width, f.height) }
      let slot1 : SharedData :=
        { w.slot with handle := some t.id, width := f.width, height := f.height,
                      frame_id := 0 }
      { w with cap := cap1, textures := t :: w.textures,
               mutexes := (t.id, KeyedMutex.fresh) :: w.mutexes,
               slot := slot1, pphase := .acq }
    else
      { w with pphase := .idle }
  | .acq =>
    match w.cap.shared_mutex_id with
    | none => { w with pphase := .idle }
    | some id =>
      match kmLookup w.mutexes id with
      | none => { w with pphase := .idle }
      | some km =>
        match km.acquireSync .producer 0 with
        | none => { w with pphase := .idle, log := w.log ++ [⟨.producer, true, 0⟩] }
        | some km1 =>
          { w with mutexes := kmSet w.mutexes id km1, pphase := .hold,
                   log := w.log ++ [⟨.producer, true, 0⟩] }
  | .hold =>
    match w.cap.shared_mutex_id with
    | none => { w with pphase := .idle }
    | some id =>
      match kmLookup w.mutexes id with
      | none => { w with pphase := .idle }
      | some km =>
        { w with mutexes := kmSet w.mutexes id (km.releaseSync 1), pphase := .pub,
                 log := w.log ++ [⟨.producer, false, 1⟩] }
  | .pub =>
    let cur := w.cap.current_frame_id + 1
    { w with cap := { w.cap with current_frame_id := cur },
             slot := { w.slot with frame_id := cur }, pphase := .idle }

/-- Modelled from the spec: one atomic consumer step of the zero-copy tick
(section 4.3 step 5), by phase. read: read the slot under its lock, skip
the tick when nothing was published or the version equals the last
consumed one, rebind (import the shared texture by handle) when the handle
or dimensions changed. acq: the non-blocking AcquireSync(1, 0), skipping
the tick on failure without advancing last_frame_id. hold: draw, then
ReleaseSync(0) and record the consumed version. -/
def zConsumerStep (w : ZWorld) : ZWorld :=
  match w.cphase with
  | .idle => w
  | .read =>
    match w.slot.handle with
    | none => { w with cphase := .idle }
    | some h =>
      if w.slot.frame_id = w.cons.last_frame_id then
        { w with cphase := .idle }
      else
        let cons :=
          if w.cons.bound_handle ≠ some h ∨ w.cons.bound_size ≠ (w.slot.width, w.slot.height)
          then { w.cons with bound_handle := some h,
                             bound_size := (w.slot.width, w.slot.height) }
          else w.cons
        { w with cons := cons, cphase := .acq w.slot.frame_id }
  | .acq fid =>
    match w.cons.bound_handle with
    | none => { w with cphase := .idle }
    | some id =>
      match kmLookup w.mutexes id with
      | none => { w with cphase := .idle }
      | some km =>
        match km.acquireSync .consumer 1 with
        | none => { w with cphase := .idle, log := w.log ++ [⟨.consumer, true, 1⟩] }
        | some km1 =>
          { w with mutexes := kmSet w.mutexes id km1, cphase := .hold fid,
                   log := w.log ++ [⟨.consumer, true, 1⟩] }
  | .hold fid =>
    match w.cons.bound_handle with
    | none => { w with cphase := .idle }
    | some id =>
      match kmLookup w.mutexes id with
      | none => { w with cphase := .idle }
      | some km =>
        { w with mutexes := kmSet w.mutexes id (km.releaseSync 0),
                 cons := { w.cons with last_frame_id := fid }, cphase := .idle,
                 log := w.log ++ [⟨.consumer, false, 0⟩] }

/-- Scheduler alphabet of the zero-copy model: a frame delivery (accepted
only when the producer is idle, since capture callbacks are serialized on
the capture thread), a producer step, a redraw tick (accepted only when
the consumer is idle), and a consumer step. -/
inductive ZEv
  | frame (f : Frame) (createOk : Bool)
  | pstep
  | tick
  | cstep
deriving DecidableEq, Repr

/-- One scheduled event. -/
def zStep (w : ZWorld) : ZEv → ZWorld
  | .frame f createOk => if w.pphase = .idle then { w with pphase := .ensure f createOk } else w
  | .pstep => zProducerStep w
  | .tick => if w.cphase = .idle then { w with cphase := .read } else w
  | .cstep => zConsumerStep w

/-- Startup state of the zero-copy model. -/
def zInit : ZWorld :=
  ⟨⟨1, none, none, (0, 0), 0⟩, slotInit, [], [], .idle, .idle, ⟨0, none, (0, 0)⟩, []⟩

/-- Run a schedule from startup. -/
def zRun (evs : List ZEv) : ZWorld := evs.foldl zStep zInit

/-- The producer holds the keyed mutex with the given texture id: it is
between a successful AcquireSync(0, 0) and the matching ReleaseSync(1). -/
def pHolds (w : ZWorld) (id : Nat) : Prop :=
  w.pphase = PPhase.hold ∧ w.cap.shared_mutex_id = some id

/-- The consumer holds the keyed mutex with the given texture id: it is
between a successful AcquireSync(1, 0) and the matching ReleaseSync(0). -/
def cHolds (w : ZWorld) (id : Nat) : Prop :=
  (∃ fid, w.cphase = CPhase.hold fid) ∧ w.cons.bound_handle = some id

/-- The key discipline of the two-key protocol: the producer only ever
acquires with key 0 and releases with key 1; the consumer only ever
acquires with key 1 and releases with key 0. -/
def mutexOpOk (e : MutexOp) : Prop :=
  (e.side = Side.producer ∧ e.isAcquire = true ∧ e.key = 0) ∨
  (e.side = Side.producer ∧ e.isAcquire = false ∧ e.key = 1) ∨
  (e.side = Side.consumer ∧ e.isAcquire = true ∧ e.key = 1) ∨
  (e.side = Side.consumer ∧ e.isAcquire = false ∧ e.key = 0)

/-- The slot is never left with a mismatched handle and size: whenever a
handle is published, some allocated shared texture has that id and exactly
the published dimensions. -/
def slotSizeConsistent (w : ZWorld) : Prop :=
  ∀ id, w.slot.handle = some id →
    ∃ t ∈ w.textures, t.id = id ∧ t.width = w.slot.width ∧ t.height = w.slot.height

/-- Inductive invariant of the zero-copy model: allocated ids are below the
allocation counter (so a fresh mutex never shadows a live one), a holding
phase of either side is backed by the mutex object recording that side as
holder, the slot is handle-size consistent, and the log obeys the key
discipline. -/
def ZInv (w : ZWorld) : Prop :=
  (∀ p ∈ w.mutexes, p.1 < w.cap.next_texture_id) ∧
  (∀ id, w.slot.handle = some id → id < w.cap.next_texture_id) ∧
  (∀ id, w.cons.bound_handle = some id → id < w.cap.next_texture_id) ∧
  (∀ id, w.cap.shared_mutex_id = some id → id < w.cap.next_texture_id) ∧
  (w.pphase = PPhase.hold →
    ∃ id km, w.cap.shared_mutex_id = some id ∧ kmLookup w.mutexes id = some km ∧
      km.holder = some Side.producer) ∧
  (∀ fid, w.cphase = CPhase.hold fid →
    ∃ id km, w.cons.bound_handle = some id ∧ kmLookup w.mutexes id = some km ∧
      km.holder = some Side.consumer) ∧
  slotSizeConsistent w ∧
  (∀ e ∈ w.log, mutexOpOk e)

/-- Demonstration schedule: one frame handled to completion, one full
consumer tick, a second frame delivery overlapping a second tick. -/
def demoSchedule : List ZEv :=
  [ZEv.frame f100 true, ZEv.pstep, ZEv.pstep, ZEv.pstep, ZEv.pstep,
   ZEv.tick, ZEv.cstep, ZEv.frame f100 true, ZEv.pstep, ZEv.pstep,
   ZEv.cstep, ZEv.cstep, ZEv.pstep, ZEv.pstep]



example : runFrames initProd [(true, f100)] = (⟨capAfterOne, slotAfterOne⟩,
    [⟨WriteKind.resetPub, ⟨some 1, 100, 100, 0, []⟩⟩,
     ⟨WriteKind.framePub, slotAfterOne⟩]) := by
  decide

/-
Helper lemmas.
-/

theorem listResize_length (l : List Nat) (n : Nat) : (listResize l n).length = n := by
  unfold listResize
  split
  · simp [List.length_take]; omega
  · simp; omega

/-- App::render on a tick with nothing to consume (no newer frame, or an
empty slot buffer): state unchanged, upload exactly when the local buffer
already matches the surface size. -/
theorem render_no_new (a : App) (slot : SharedData)
    (h : ¬(a.last_frame_id < slot.frame_id ∧ slot.buffer ≠ [])) :
    App.render a slot =
      (a, slot,
        if a.local_buffer.length ≠ a.size_w * a.size_h * 4 then ⟨false, false⟩
        else ⟨true, true⟩) := by
  by_cases hlen : a.local_buffer.length ≠ a.size_w * a.size_h * 4 <;>
    simp [App.render, if_neg h, hlen]

/-- App::render on a tick that consumes: the buffers are swapped, the
consumed frame_id is recorded, and the upload happens exactly when the
consumed payload matches the surface size. -/
theorem render_consumed (a : App) (slot : SharedData)
    (h : a.last_frame_id < slot.frame_id ∧ slot.buffer ≠ []) :
    App.render a slot =
      ({ a with local_buffer := slot.buffer, last_frame_id := slot.frame_id },
       { slot with buffer :=
           if a.local_buffer.length ≠ slot.buffer.length then
             listResize a.local_buffer slot.buffer.length
           else a.local_buffer },
       if slot.buffer.length ≠ a.size_w * a.size_h * 4 then ⟨false, false⟩
       else ⟨true, true⟩) := by
  by_cases hlen : slot.buffer.length ≠ a.size_w * a.size_h * 4 <;>
    simp [App.render, if_pos h, hlen]

/-
Claim C6.
-/

/-- C6: a resize notification with a zero dimension changes nothing (the
previous surface configuration, size, texture and bind group are all
retained); a resize with both dimensions positive sets the surface
configuration to the new dimensions and recreates the size-dependent
texture and bind group at the new size. -/
theorem c6_resize_correct (a : App) (w h : Nat) :
    ((w = 0 ∨ h = 0) → App.resize a w h = a) ∧
    (0 < w → 0 < h →
      (App.resize a w h).config_width = w ∧
      (App.resize a w h).config_height = h ∧
      (App.resize a w h).size_w = w ∧
      (App.resize a w h).size_h = h ∧
      (App.resize a w h).surface_gen = a.surface_gen + 1 ∧
      (App.resize a w h).texture_w = w ∧
      (App.resize a w h).texture_h = h ∧
      (App.resize a w h).texture_gen = a.texture_gen + 1 ∧
      (App.resize a w h).bind_group_gen = a.bind_group_gen + 1) := by
  constructor
  · intro hz
    unfold App.resize
    rw [if_neg (by omega)]
  · intro hw hh
    simp [App.resize, hw, hh]

/-- C6 witness: a zero-width resize of a concrete app is the identity, and
a positive resize updates the configuration width. -/
theorem c6_resize_correct_witness :
    App.resize (App.init 5 5) 0 7 = App.init 5 5 ∧
      (App.resize (App.init 5 5) 3 4).config_width = 3 :=
  ⟨(c6_resize_correct (App.init 5 5) 0 7).1 (Or.inl rfl),
   ((c6_resize_correct (App.init 5 5) 3 4).2 (by decide) (by decide)).1⟩

/-
Claim C10.
-/

/-- C10: on a delivered frame whose dimensions equal those of the current
shared texture, ensure_shared_texture returns success and modifies nothing:
the slot keeps its published handle, width, height and frame_id, no slot
write happens, and no new texture or mutex is allocated (the producer state
is returned unchanged). -/
theorem c10_same_size_noop (createOk : Bool) (c : Capturer) (slot : SharedData) (f : Frame)
    (t : Texture2D) (ht : c.shared_texture = some t)
    (hs : c.shared_size = (t.width, t.height))
    (hw : f.width = t.width) (hh : f.height = t.height) :
    Capturer.ensure_shared_texture createOk c slot f = .ok (c, slot, []) := by
  unfold Capturer.ensure_shared_texture
  rw [if_pos ⟨by simp [ht], by rw [hs, hw, hh]⟩]

/-- C10 witness: a second 100x100 frame after a first one leaves the
producer state and the slot untouched. -/
theorem c10_same_size_noop_witness :
    Capturer.ensure_shared_texture true capAfterOne slotAfterOne f100 =
      .ok (capAfterOne, slotAfterOne, []) :=
  c10_same_size_noop true capAfterOne slotAfterOne f100
    ⟨1, 100, 100, DXGIFormat.B8G8R8A8Unorm⟩ rfl rfl rfl rfl

/-
Claim C5.
-/

/-- C5: on a delivered frame on which the non-blocking AcquireSync with key
0 fails, on_frame_arrived skips the frame, leaves the shared slot (and the
whole producer state) unchanged with no publication and no version bump,
and returns success. The acquisition attempt is identified by the keyed
mutex that ensure_shared_texture leaves in place. -/
theorem c5_acquire_fail_silent (createOk : Bool) (c : Capturer) (slot : SharedData)
    (f : Frame) (c1 : Capturer) (slot1 : SharedData) (ws : List SlotWrite) (km : KeyedMutex)
    (hens : Capturer.ensure_shared_texture createOk c slot f = .ok (c1, slot1, ws))
    (hkm : c1.shared_mutex = some km)
    (hacq : km.acquireSync Side.producer 0 = none) :
    Capturer.on_frame_arrived createOk c slot f = .ok (c, slot, []) := by
  have hens0 := hens
  unfold Capturer.ensure_shared_texture at hens
  split at hens
  · -- same dimensions: ensure was a no-op, and the failing acquire aborts the call
    rename_i hcond
    rw [Except.ok.injEq, Prod.mk.injEq, Prod.mk.injEq] at hens
    obtain ⟨hc1, hslot1, hws⟩ := hens
    obtain ⟨t, ht⟩ := Option.isSome_iff_exists.mp hcond.1
    subst hc1 hslot1 hws
    unfold Capturer.on_frame_arrived
    rw [hens0]
    simp only [ht, hkm, hacq]
  · -- resolution change: the mutex left in place is fresh, and a fresh mutex
    -- is always acquirable with key 0, contradicting the failing acquire
    split at hens
    · rw [Except.ok.injEq, Prod.mk.injEq] at hens
      rw [← hens.1] at hkm
      simp only [Capturer.shared_mutex] at hkm
      rw [Option.some.injEq] at hkm
      rw [← hkm] at hacq
      simp [KeyedMutex.acquireSync, KeyedMutex.fresh] at hacq
    · exact absurd hens (by simp)

/-- C5 witness: after one successful 100x100 frame the mutex is pending key
1, so the next AcquireSync(0, 0) fails and that frame is skipped with the
slot untouched and a success return. -/
theorem c5_acquire_fail_silent_witness :
    Capturer.on_frame_arrived true capAfterOne slotAfterOne f100 =
      .ok (capAfterOne, slotAfterOne, []) :=
  c5_acquire_fail_silent true capAfterOne slotAfterOne f100 capAfterOne slotAfterOne []
    ⟨1, none⟩ rfl rfl rfl

/-
Claim C7.
-/

/-- C7 counterexample: the claim includes a version bump on every
resolution-change publication, but the code writes frame_id := 0 there,
which is a strict decrease once any frame has been published. The instance
is the producer state reached after one successful 100x100 frame
(slot version 1) receiving a 200x150 frame. -/
theorem c7_claim_counterexample :
    ¬ (∀ (c : Capturer) (slot : SharedData) (f : Frame) (c1 : Capturer)
         (slot1 : SharedData) (ws : List SlotWrite),
         Capturer.ensure_shared_texture true c slot f = .ok (c1, slot1, ws) →
         ws ≠ [] → slot.frame_id < slot1.frame_id) := by
  intro hclaim
  have h := hclaim capAfterOne slotAfterOne f200
    ⟨3, some ⟨2, 200, 150, DXGIFormat.B8G8R8A8Unorm⟩, some KeyedMutex.fresh, (200, 150), 1⟩
    ⟨some 2, 200, 150, 0, []⟩
    [⟨WriteKind.resetPub, ⟨some 2, 200, 150, 0, []⟩⟩]
    rfl (by decide)
  exact absurd h (by decide)

/-- C7 (amended): on a delivered frame whose dimensions differ from the
current shared texture (including the very first frame), the producer
allocates a new shared texture and keyed-mutex pair sized to the frame,
exports its handle, and publishes the new handle, width and height to the
slot in a single publication with the frame counter reset to 0. (No
version bump happens: frame_id := 0 is the only counter write, and it can
decrease the published version.) -/
theorem c7_resolution_change_publication (c : Capturer) (slot : SharedData) (f : Frame)
    (h : c.shared_texture = none ∨ c.shared_size ≠ (f.width, f.height)) :
    Capturer.ensure_shared_texture true c slot f =
      .ok
        ({ c with next_texture_id := c.next_texture_id + 1,
                  shared_texture := some ⟨c.next_texture_id, f.width, f.height,
                    dxgi_format_from_color f.color_format⟩,
                  shared_mutex := some KeyedMutex.fresh,
                  shared_size := (f.width, f.height) },
         { slot with handle := some c.next_texture_id, width := f.width,
                     height := f.height, frame_id := 0 },
         [⟨WriteKind.resetPub,
           { slot with handle := some c.next_texture_id, width := f.width,
                       height := f.height, frame_id := 0 }⟩]) := by
  have hcond : ¬(c.shared_texture.isSome ∧ c.shared_size = (f.width, f.height)) := by
    rcases h with h | h
    · intro hc
      rw [h] at hc
      exact absurd hc.1 (by simp)
    · intro hc
      exact h hc.2
  unfold Capturer.ensure_shared_texture
  rw [if_neg hcond]
  rfl

/-- C7 witness: the very first frame from startup allocates texture 1 at
100x100 and publishes its handle with frame counter 0. -/
theorem c7_resolution_change_publication_witness :
    Capturer.ensure_shared_texture true Capturer.init slotInit f100 =
      .ok (⟨2, some ⟨1, 100, 100, DXGIFormat.B8G8R8A8Unorm⟩, some KeyedMutex.fresh,
             (100, 100), 0⟩,
           ⟨some 1, 100, 100, 0, []⟩,
           [⟨WriteKind.resetPub, ⟨some 1, 100, 100, 0, []⟩⟩]) :=
  c7_resolution_change_publication Capturer.init slotInit f100 (Or.inl rfl)

/-
Claim C3.
-/

/-- C3 counterexample: the claim says a second redraw tick with no
publication in between performs no GPU upload. In the code the upload at
src/app.rs line 267 runs on every tick whose local buffer matches the
surface size, so after one consumed 1x1 frame the second tick uploads the
same bytes again. -/
theorem c3_claim_counterexample :
    ¬ (∀ (a : App) (slot : SharedData) (a1 a2 : App) (slot1 slot2 : SharedData)
         (o1 o2 : RenderOutcome),
         App.render a slot = (a1, slot1, o1) →
         App.render a1 slot1 = (a2, slot2, o2) →
         o2.uploaded = false ∧ a2.last_frame_id = a1.last_frame_id) := by
  intro hclaim
  have h := hclaim (App.init 1 1) (publishCopy slotInit [5, 6, 7, 8] 1 1)
    ⟨1, 1, 1, 1, 0, 0, 0, 1, 1, 1, [5, 6, 7, 8]⟩
    ⟨1, 1, 1, 1, 0, 0, 0, 1, 1, 1, [5, 6, 7, 8]⟩
    ⟨none, 1, 1, 1, [0, 0, 0, 0]⟩
    ⟨none, 1, 1, 1, [0, 0, 0, 0]⟩
    ⟨true, true⟩ ⟨true, true⟩ (by decide) (by decide)
  exact absurd h.1 (by decide)

/-- C3 (amended): if no publication occurs between two consecutive redraw
ticks, the second tick consumes nothing and performs no version update (the
app state, including last_frame_id and the local buffer, and the slot are
exactly as after the first tick), but the upload of the unchanged local
buffer still runs whenever its length matches the surface size — the skip
is idempotent in state, not in GPU work. -/
theorem c3_second_tick_no_consume (a : App) (slot : SharedData) (a1 a2 : App)
    (slot1 slot2 : SharedData) (o1 o2 : RenderOutcome)
    (h1 : App.render a slot = (a1, slot1, o1))
    (h2 : App.render a1 slot1 = (a2, slot2, o2)) :
    a2 = a1 ∧ slot2 = slot1 ∧
      (o2.uploaded = true ↔ a1.local_buffer.length = a1.size_w * a1.size_h * 4) := by
  have hsecond : ¬(a1.last_frame_id < slot1.frame_id ∧ slot1.buffer ≠ []) := by
    by_cases hc : a.last_frame_id < slot.frame_id ∧ slot.buffer ≠ []
    · rw [render_consumed a slot hc] at h1
      rw [Prod.mk.injEq, Prod.mk.injEq] at h1
      obtain ⟨ha1, hslot1, _⟩ := h1
      intro hnew
      rw [← ha1, ← hslot1] at hnew
      simp only [App.last_frame_id, SharedData.frame_id] at hnew
      exact absurd hnew.1 (lt_irrefl _)
    · rw [render_no_new a slot hc] at h1
      rw [Prod.mk.injEq, Prod.mk.injEq] at h1
      obtain ⟨ha1, hslot1, _⟩ := h1
      rw [← ha1, ← hslot1]
      exact hc
  rw [render_no_new a1 slot1 hsecond, Prod.mk.injEq, Prod.mk.injEq] at h2
  obtain ⟨ha2, hslot2, ho2⟩ := h2
  refine ⟨ha2.symm, hslot2.symm, ?_⟩
  rw [← ho2]
  by_cases hlen : a1.local_buffer.length = a1.size_w * a1.size_h * 4
  · simp [hlen]
  · simp [hlen]

/-- C3 witness: concrete two ticks after a single 1x1 publication; the
second tick leaves all state unchanged and its upload condition holds. -/
theorem c3_second_tick_no_consume_witness :
    (⟨1, 1, 1, 1, 0, 0, 0, 1, 1, 1, [5, 6, 7, 8]⟩ : App) =
        ⟨1, 1, 1, 1, 0, 0, 0, 1, 1, 1, [5, 6, 7, 8]⟩ ∧
      (⟨none, 1, 1, 1, [0, 0, 0, 0]⟩ : SharedData) = ⟨none, 1, 1, 1, [0, 0, 0, 0]⟩ ∧
      ((true : Bool) = true ↔
        ([5, 6, 7, 8] : List Nat).length = 1 * 1 * 4) :=
  c3_second_tick_no_consume (App.init 1 1) (publishCopy slotInit [5, 6, 7, 8] 1 1)
    ⟨1, 1, 1, 1, 0, 0, 0, 1, 1, 1, [5, 6, 7, 8]⟩
    ⟨1, 1, 1, 1, 0, 0, 0, 1, 1, 1, [5, 6, 7, 8]⟩
    ⟨none, 1, 1, 1, [0, 0, 0, 0]⟩ ⟨none, 1, 1, 1, [0, 0, 0, 0]⟩
    ⟨true, true⟩ ⟨true, true⟩ (by decide) (by decide)

/-
Claim C4.
-/

/-- C4 counterexample: the claim says a tick whose consumed payload length
mismatches the surface size updates nothing, in particular not
last_consumed_version. In the code the swap at src/app.rs lines 256-260
records last_frame_id before the length guard runs, so consuming a 2x1
payload on a 1x1 surface advances last_frame_id from 0 to 1 even though
the upload is skipped. -/
theorem c4_claim_counterexample :
    ¬ (∀ (a : App) (slot : SharedData) (a1 : App) (slot1 : SharedData) (o1 : RenderOutcome),
         App.render a slot = (a1, slot1, o1) →
         a1.local_buffer.length ≠ a1.size_w * a1.size_h * 4 →
         o1.uploaded = false ∧ a1.last_frame_id = a.last_frame_id) := by
  intro hclaim
  have h := hclaim (App.init 1 1) (publishCopy slotInit [1, 2, 3, 4, 5, 6, 7, 8] 2 1)
    ⟨1, 1, 1, 1, 0, 0, 0, 1, 1, 1, [1, 2, 3, 4, 5, 6, 7, 8]⟩
    ⟨none, 2, 1, 1, [0, 0, 0, 0, 0, 0, 0, 0]⟩ ⟨false, false⟩ (by decide) (by decide)
  exact absurd h.2 (by decide)

/-- C4 (amended): on a redraw tick that consumes a payload whose length
differs from surface width * surface height * 4, the render step skips the
upload; but last_consumed_version is advanced to the consumed frame_id at
swap time, before the guard, so the slot frame is not re-consumed — only
the upload of the already-swapped local buffer is retried on later ticks.
(The guard compares against the surface size, not against the dimensions
advertised in the slot.) -/
theorem c4_mismatch_skips_upload (a : App) (slot : SharedData) (a1 : App)
    (slot1 : SharedData) (o1 : RenderOutcome)
    (hnew : a.last_frame_id < slot.frame_id) (hne : slot.buffer ≠ [])
    (hmis : slot.buffer.length ≠ a.size_w * a.size_h * 4)
    (h : App.render a slot = (a1, slot1, o1)) :
    o1.uploaded = false ∧ a1.last_frame_id = slot.frame_id ∧
      a1.local_buffer = slot.buffer ∧ slot1.buffer.length = slot.buffer.length := by
  rw [render_consumed a slot ⟨hnew, hne⟩, Prod.mk.injEq, Prod.mk.injEq] at h
  obtain ⟨ha1, hslot1, ho1⟩ := h
  rw [if_pos hmis] at ho1
  refine ⟨by rw [← ho1], by rw [← ha1], by rw [← ha1], ?_⟩
  rw [← hslot1]
  by_cases hl : a.local_buffer.length ≠ slot.buffer.length
  · simp only [SharedData.buffer, if_pos hl]
    exact listResize_length _ _
  · simp only [SharedData.buffer, if_neg hl]
    omega

/-- C4 witness: consuming a 2x1 payload on a 1x1 surface skips the upload,
advances last_frame_id to 1, and keeps the payload in the local buffer. -/
theorem c4_mismatch_skips_upload_witness :
    (false : Bool) = false ∧
      (⟨1, 1, 1, 1, 0, 0, 0, 1, 1, 1, [1, 2, 3, 4, 5, 6, 7, 8]⟩ : App).last_frame_id = 1 ∧
      (⟨1, 1, 1, 1, 0, 0, 0, 1, 1, 1, [1, 2, 3, 4, 5, 6, 7, 8]⟩ : App).local_buffer =
        [1, 2, 3, 4, 5, 6, 7, 8] ∧
      (⟨none, 2, 1, 1, [0, 0, 0, 0, 0, 0, 0, 0]⟩ : SharedData).buffer.length =
        ([1, 2, 3, 4, 5, 6, 7, 8] : List Nat).length := by
  have h := c4_mismatch_skips_upload (App.init 1 1)
    (publishCopy slotInit [1, 2, 3, 4, 5, 6, 7, 8] 2 1)
    ⟨1, 1, 1, 1, 0, 0, 0, 1, 1, 1, [1, 2, 3, 4, 5, 6, 7, 8]⟩
    ⟨none, 2, 1, 1, [0, 0, 0, 0, 0, 0, 0, 0]⟩ ⟨false, false⟩ (by decide) (by decide) (by decide) (by decide)
  exact ⟨h.1, h.2.1, h.2.2.1, h.2.2.2⟩

/-
Claim C8.
-/

/-- One well-formed interleaving operation preserves the copy-strategy slot
invariant buffer.length = width * height * 4: a publication installs a
payload matching its dimensions atomically, and a consumer tick either
leaves the slot alone or swaps in a buffer resized to exactly the length of
the one it takes out, touching neither width nor height. -/
theorem copyStep_preserves (st : App × SharedData) (op : CopyOp)
    (hop : op.wf = true)
    (hinv : st.2.buffer.length = st.2.width * st.2.height * 4) :
    (copyStep st op).2.buffer.length =
      (copyStep st op).2.width * (copyStep st op).2.height * 4 := by
  cases op with
  | publish bytes w h =>
    simp only [CopyOp.wf, beq_iff_eq] at hop
    simp [copyStep, publishCopy, hop]
  | consume =>
    by_cases hc : st.1.last_frame_id < st.2.frame_id ∧ st.2.buffer ≠ []
    · simp only [copyStep, render_consumed st.1 st.2 hc]
      by_cases hl : st.1.local_buffer.length ≠ st.2.buffer.length
      · simp only [if_pos hl]
        rw [← hinv]
        exact listResize_length _ _
      · simp only [if_neg hl]
        rw [← hinv]
        omega
    · simp [copyStep, render_no_new st.1 st.2 hc, hinv]

/-- The invariant holds after any well-formed interleaving from any state
satisfying it. -/
theorem copyRun_inv (ops : List CopyOp) : ∀ (st : App × SharedData),
    copyWF ops = true →
    st.2.buffer.length = st.2.width * st.2.height * 4 →
    (copyRun st ops).2.buffer.length =
      (copyRun st ops).2.width * (copyRun st ops).2.height * 4 := by
  induction ops with
  | nil =>
    intro st _ hinv
    simpa [copyRun] using hinv
  | cons op rest ih =>
    intro st hwf hinv
    have hall : op.wf = true ∧ copyWF rest = true := by
      simpa [copyWF, List.all_cons] using hwf
    exact ih (copyStep st op) hall.2 (copyStep_preserves st op hall.1 hinv)

/-- C8: no tearing under the copy strategy. For every well-formed
interleaving of publications and consumer ticks starting from the empty
slot, the slot payload length equals width * height * 4 for the width and
height stored with it, so any read of the slot (any prefix of any
interleaving) returns a payload consistent with the dimensions returned by
the same read. -/
theorem c8_no_tearing (ops : List CopyOp) (a : App) (h : copyWF ops = true) :
    (copyRun (a, slotInit) ops).2.buffer.length =
      (copyRun (a, slotInit) ops).2.width * (copyRun (a, slotInit) ops).2.height * 4 :=
  copyRun_inv ops (a, slotInit) h (by simp [slotInit])

/-- C8 witness: a publish of a 1x1 payload followed by a consuming tick and
one more publish keeps the slot consistent. -/
theorem c8_no_tearing_witness :
    copyWF [CopyOp.publish [9, 9, 9, 9] 1 1, CopyOp.consume,
      CopyOp.publish [1, 2, 3, 4, 5, 6, 7, 8] 2 1] = true ∧
      (copyRun (App.init 1 1, slotInit)
          [CopyOp.publish [9, 9, 9, 9] 1 1, CopyOp.consume,
           CopyOp.publish [1, 2, 3, 4, 5, 6, 7, 8] 2 1]).2.buffer.length =
        (copyRun (App.init 1 1, slotInit)
            [CopyOp.publish [9, 9, 9, 9] 1 1, CopyOp.consume,
             CopyOp.publish [1, 2, 3, 4, 5, 6, 7, 8] 2 1]).2.width *
          (copyRun (App.init 1 1, slotInit)
              [CopyOp.publish [9, 9, 9, 9] 1 1, CopyOp.consume,
               CopyOp.publish [1, 2, 3, 4, 5, 6, 7, 8] 2 1]).2.height * 4 :=
  ⟨by decide,
   c8_no_tearing
     [CopyOp.publish [9, 9, 9, 9] 1 1, CopyOp.consume,
      CopyOp.publish [1, 2, 3, 4, 5, 6, 7, 8] 2 1]
     (App.init 1 1) (by decide)⟩

/-
Claims C1 and C2: behaviour of the slot-write history.
-/

/-- Anatomy of one delivered frame: either nothing is written (creation
failure, or a failing AcquireSync on an unchanged resolution), or exactly
one frame publication with version current_frame_id + 1, or a
resolution-change publication with version 0 followed by the frame
publication with version current_frame_id + 1. -/
theorem stepFrame_spec (s : ProdState) (co : Bool) (f : Frame) :
    stepFrame s (co, f) = (s, []) ∨
    (∃ cap1 : Capturer,
      cap1.current_frame_id = s.cap.current_frame_id + 1 ∧
      stepFrame s (co, f) =
        (⟨cap1, { s.slot with frame_id := s.cap.current_frame_id + 1 }⟩,
         [⟨WriteKind.framePub, { s.slot with frame_id := s.cap.current_frame_id + 1 }⟩])) ∨
    (∃ (cap1 : Capturer) (slot1 : SharedData),
      cap1.current_frame_id = s.cap.current_frame_id + 1 ∧
      slot1.frame_id = 0 ∧
      stepFrame s (co, f) =
        (⟨cap1, { slot1 with frame_id := s.cap.current_frame_id + 1 }⟩,
         [⟨WriteKind.resetPub, slot1⟩,
          ⟨WriteKind.framePub, { slot1 with frame_id := s.cap.current_frame_id + 1 }⟩])) := by
  by_cases h1 : (s.cap.shared_texture.isSome ∧ s.cap.shared_size = (f.width, f.height))
  · -- dimensions unchanged: ensure is a no-op
    obtain ⟨t, ht⟩ := Option.isSome_iff_exists.mp h1.1
    cases hmx : s.cap.shared_mutex with
    | none =>
      left
      simp [stepFrame, Capturer.on_frame_arrived, Capturer.ensure_shared_texture,
        ht, h1.2, hmx]
    | some km =>
      cases hacq : km.acquireSync .producer 0 with
      | none =>
        left
        simp [stepFrame, Capturer.on_frame_arrived, Capturer.ensure_shared_texture,
          ht, h1.2, hmx, hacq]
      | some km1 =>
        right; left
        refine ⟨⟨s.cap.next_texture_id, s.cap.shared_texture, some (km1.releaseSync 1), s.cap.shared_size, s.cap.current_frame_id + 1⟩, rfl, ?_⟩
        simp [stepFrame, Capturer.on_frame_arrived, Capturer.ensure_shared_texture,
          ht, h1.2, hmx, hacq]
  · -- resolution change or first frame
    cases co with
    | false =>
      left
      simp [stepFrame, Capturer.on_frame_arrived, Capturer.ensure_shared_texture,
        if_neg h1]
    | true =>
      right; right
      exact ⟨⟨s.cap.next_texture_id + 1,
              some ⟨s.cap.next_texture_id, f.width, f.height,
                dxgi_format_from_color f.color_format⟩,
              some ⟨1, none⟩, (f.width, f.height), s.cap.current_frame_id + 1⟩,
             ⟨some s.cap.next_texture_id, f.width, f.height, 0, s.slot.buffer⟩,
             rfl, rfl,
             by simp [stepFrame, Capturer.on_frame_arrived, Capturer.ensure_shared_texture,
               if_neg h1, KeyedMutex.acquireSync, KeyedMutex.fresh, KeyedMutex.releaseSync]⟩

/-- Full behaviour of the slot-write history of a producer run: writes obey
histP pairwise (every later write is a reset or carries a strictly larger
version than every earlier one), the internal counter is monotone and
bounds every written version, every reset publication carries version 0,
and the frame publications carry exactly the consecutive versions from
current_frame_id + 1 up to the final counter value. -/
theorem runFrames_aux (inputs : List (Bool × Frame)) : ∀ (s s2 : ProdState)
    (hist : List SlotWrite),
    runFrames s inputs = (s2, hist) →
    s.slot.frame_id ≤ s.cap.current_frame_id →
    (List.Pairwise histP hist ∧
     s.cap.current_frame_id ≤ s2.cap.current_frame_id ∧
     s2.slot.frame_id ≤ s2.cap.current_frame_id ∧
     (∀ w ∈ hist, w.slot.frame_id ≤ s2.cap.current_frame_id) ∧
     (∀ w ∈ hist, w.kind = WriteKind.framePub →
        s.cap.current_frame_id < w.slot.frame_id) ∧
     (∀ w ∈ hist, w.kind = WriteKind.resetPub → w.slot.frame_id = 0) ∧
     (hist.filter SlotWrite.isFramePub).map (fun w => w.slot.frame_id) =
       List.range' (s.cap.current_frame_id + 1)
         (s2.cap.current_frame_id - s.cap.current_frame_id)) := by
  induction inputs with
  | nil =>
    intro s s2 hist heq hfid
    simp only [runFrames] at heq
    rw [Prod.mk.injEq] at heq
    obtain ⟨hs2, hhist⟩ := heq
    subst hs2 hhist
    simp [hfid]
  | cons i rest ih =>
    intro s s2 hist heq hfid
    obtain ⟨co, f⟩ := i
    simp only [runFrames] at heq
    rcases stepFrame_spec s co f with hstep | ⟨cap1, hc1, hstep⟩ |
      ⟨cap1, slot1, hc1, hz, hstep⟩
    · -- nothing written this frame
      rw [hstep] at heq
      simp only [List.nil_append] at heq
      exact ih s s2 hist heq hfid
    · -- one frame publication
      rw [hstep] at heq
      cases hrest : runFrames ⟨cap1, { s.slot with frame_id := s.cap.current_frame_id + 1 }⟩
          rest with
      | mk s2m hist2 =>
        rw [hrest] at heq
        simp only [Prod.mk.injEq] at heq
        obtain ⟨hs2, hhist⟩ := heq
        subst hs2
        have ih2 := ih _ s2m hist2 hrest (by simp [hc1])
        obtain ⟨ihPair, ihMono, ihFin, ihAll, ihFp, ihReset, ihFilter⟩ := ih2
        rw [hc1] at ihMono ihFp ihFilter
        set wF : SlotWrite :=
          ⟨WriteKind.framePub, { s.slot with frame_id := s.cap.current_frame_id + 1 }⟩
          with hwF
        have hwfid : wF.slot.frame_id = s.cap.current_frame_id + 1 := rfl
        subst hhist
        refine ⟨?_, by omega, ihFin, ?_, ?_, ?_, ?_⟩
        · rw [List.singleton_append, List.pairwise_cons]
          refine ⟨?_, ihPair⟩
          intro b hb
          cases hbk : b.kind with
          | resetPub => exact Or.inl hbk
          | framePub =>
            refine Or.inr ?_
            have := ihFp b hb hbk
            omega
        · intro w hw
          rw [List.singleton_append, List.mem_cons] at hw
          rcases hw with hw | hw
          · subst hw; rw [hwfid]; omega
          · exact ihAll w hw
        · intro w hw hk
          rw [List.singleton_append, List.mem_cons] at hw
          rcases hw with hw | hw
          · subst hw; rw [hwfid]; omega
          · have := ihFp w hw hk; omega
        · intro w hw hk
          rw [List.singleton_append, List.mem_cons] at hw
          rcases hw with hw | hw
          · subst hw; exact absurd hk (by simp [hwF])
          · exact ihReset w hw hk
        · rw [List.singleton_append, List.filter_cons]
          have : wF.isFramePub = true := rfl
          rw [if_pos this, List.map_cons, hwfid, ihFilter]
          have hn : s2m.cap.current_frame_id - s.cap.current_frame_id =
              (s2m.cap.current_frame_id - (s.cap.current_frame_id + 1)) + 1 := by omega
          rw [hn, List.range'_succ]
    · -- a reset publication followed by a frame publication
      rw [hstep] at heq
      cases hrest : runFrames ⟨cap1, { slot1 with frame_id := s.cap.current_frame_id + 1 }⟩
          rest with
      | mk s2m hist2 =>
        rw [hrest] at heq
        simp only [Prod.mk.injEq] at heq
        obtain ⟨hs2, hhist⟩ := heq
        subst hs2
        have ih2 := ih _ s2m hist2 hrest (by simp [hc1])
        obtain ⟨ihPair, ihMono, ihFin, ihAll, ihFp, ihReset, ihFilter⟩ := ih2
        rw [hc1] at ihMono ihFp ihFilter
        set wR : SlotWrite := ⟨WriteKind.resetPub, slot1⟩ with hwR
        set wF : SlotWrite :=
          ⟨WriteKind.framePub, { slot1 with frame_id := s.cap.current_frame_id + 1 }⟩
          with hwF
        have hwfid : wF.slot.frame_id = s.cap.current_frame_id + 1 := rfl
        have hwrid : wR.slot.frame_id = 0 := hz
        subst hhist
        refine ⟨?_, by omega, ihFin, ?_, ?_, ?_, ?_⟩
        · rw [List.cons_append, List.singleton_append, List.pairwise_cons,
            List.pairwise_cons]
          refine ⟨?_, ?_, ihPair⟩
          · intro b hb
            rw [List.mem_cons] at hb
            rcases hb with hb | hb
            · subst hb
              exact Or.inr (by rw [hwrid, hwfid]; omega)
            · cases hbk : b.kind with
              | resetPub => exact Or.inl hbk
              | framePub =>
                refine Or.inr ?_
                have := ihFp b hb hbk
                rw [hwrid]
                omega
          · intro b hb
            cases hbk : b.kind with
            | resetPub => exact Or.inl hbk
            | framePub =>
              refine Or.inr ?_
              have := ihFp b hb hbk
              rw [hwfid]
              omega
        · intro w hw
          rw [List.cons_append, List.singleton_append, List.mem_cons, List.mem_cons] at hw
          rcases hw with hw | hw | hw
          · subst hw; rw [hwrid]; omega
          · subst hw; rw [hwfid]; omega
          · exact ihAll w hw
        · intro w hw hk
          rw [List.cons_append, List.singleton_append, List.mem_cons, List.mem_cons] at hw
          rcases hw with hw | hw | hw
          · subst hw; exact absurd hk (by simp [hwR])
          · subst hw; rw [hwfid]; omega
          · have := ihFp w hw hk; omega
        · intro w hw hk
          rw [List.cons_append, List.singleton_append, List.mem_cons, List.mem_cons] at hw
          rcases hw with hw | hw | hw
          · subst hw; exact hwrid
          · subst hw; exact absurd hk (by simp [hwF])
          · exact ihReset w hw hk
        · rw [List.cons_append, List.singleton_append, List.filter_cons, List.filter_cons]
          have hR : wR.isFramePub = false := rfl
          have hF : wF.isFramePub = true := rfl
          rw [if_neg (by simp [hR]), if_pos hF, List.map_cons, hwfid, ihFilter]
          have hn : s2m.cap.current_frame_id - s.cap.current_frame_id =
              (s2m.cap.current_frame_id - (s.cap.current_frame_id + 1)) + 1 := by omega
          rw [hn, List.range'_succ]

/-- C1 counterexample: the claim asserts the version observed by consumer
slot reads is non-decreasing across all reads, including across a
resolution change. The write history of a 100x100 frame followed by a
200x150 frame is 0, 1, 0, 2: a consumer reading after the second write and
again after the third (the lock is released between them) observes 1 then
0 — a decrease. -/
theorem c1_claim_counterexample :
    ¬ (∀ (inputs : List (Bool × Frame)) (s2 : ProdState) (hist : List SlotWrite),
         runFrames initProd inputs = (s2, hist) →
         List.Pairwise (fun a b => a.slot.frame_id ≤ b.slot.frame_id) hist) := by
  intro hclaim
  have h := hclaim demoFrames (runFrames initProd demoFrames).1
    (runFrames initProd demoFrames).2 rfl
  exact absurd h (by decide)

/-- C1 (amended): across any producer run, any two slot writes ordered in
real time satisfy: the later one is a resolution-change reset publication
(which carries version 0), or it carries a strictly larger version than the
earlier one. So the version observed by consumer reads is non-decreasing
except exactly at a resolution-change publication, where it resets to 0. -/
theorem c1_monotonic_except_reset (inputs : List (Bool × Frame)) (s2 : ProdState)
    (hist : List SlotWrite) (heq : runFrames initProd inputs = (s2, hist)) :
    List.Pairwise histP hist :=
  (runFrames_aux inputs initProd s2 hist heq (by decide)).1

/-- C1 witness: the pairwise property on the concrete history of the
demonstration run (versions 0, 1, 0, 2). -/
theorem c1_monotonic_except_reset_witness :
    List.Pairwise histP
      [⟨WriteKind.resetPub, ⟨some 1, 100, 100, 0, []⟩⟩,
       ⟨WriteKind.framePub, ⟨some 1, 100, 100, 1, []⟩⟩,
       ⟨WriteKind.resetPub, ⟨some 2, 200, 150, 0, []⟩⟩,
       ⟨WriteKind.framePub, ⟨some 2, 200, 150, 2, []⟩⟩] :=
  c1_monotonic_except_reset demoFrames
    ⟨⟨3, some ⟨2, 200, 150, DXGIFormat.B8G8R8A8Unorm⟩, some ⟨1, none⟩, (200, 150), 2⟩,
     ⟨some 2, 200, 150, 2, []⟩⟩
    [⟨WriteKind.resetPub, ⟨some 1, 100, 100, 0, []⟩⟩,
     ⟨WriteKind.framePub, ⟨some 1, 100, 100, 1, []⟩⟩,
     ⟨WriteKind.resetPub, ⟨some 2, 200, 150, 0, []⟩⟩,
     ⟨WriteKind.framePub, ⟨some 2, 200, 150, 2, []⟩⟩]
    (by decide)

/-- C2 counterexample: the claim asserts every slot publication writes
exactly the previous value plus one. In the run with one 100x100 frame and
then a 200x150 frame the published versions are 0, 1, 0, 2: the
resolution-change publication writes 0 after 1, and the following frame
publication writes 2 after 0 — neither step is plus one. -/
theorem c2_claim_counterexample :
    ¬ (∀ (inputs : List (Bool × Frame)) (s2 : ProdState) (hist : List SlotWrite),
         runFrames initProd inputs = (s2, hist) →
         ((∀ w ∈ hist.head?, w.slot.frame_id = 0) ∧
          List.Chain' (fun a b => b.slot.frame_id = a.slot.frame_id + 1) hist)) := by
  intro hclaim
  have h := (hclaim demoFrames (runFrames initProd demoFrames).1
    (runFrames initProd demoFrames).2 rfl).2
  have h2 : (runFrames initProd demoFrames).2 =
      [⟨WriteKind.resetPub, ⟨some 1, 100, 100, 0, []⟩⟩,
       ⟨WriteKind.framePub, ⟨some 1, 100, 100, 1, []⟩⟩,
       ⟨WriteKind.resetPub, ⟨some 2, 200, 150, 0, []⟩⟩,
       ⟨WriteKind.framePub, ⟨some 2, 200, 150, 2, []⟩⟩] := by decide
  rw [h2] at h
  simp [List.chain'_cons] at h

/-- C2 (amended): the counter starts at 0, and the frame publications of
any producer run carry exactly the consecutive versions 1, 2, ...,
current_frame_id — each one more than the previous frame publication, even
across resolution changes; but each resolution-change publication writes
version 0 into the slot, so the full sequence of slot writes is not a
plus-one sequence once a resolution change follows a published frame. -/
theorem c2_frame_publication_versions (inputs : List (Bool × Frame)) (s2 : ProdState)
    (hist : List SlotWrite) (heq : runFrames initProd inputs = (s2, hist)) :
    (hist.filter SlotWrite.isFramePub).map (fun w => w.slot.frame_id) =
      List.range' 1 s2.cap.current_frame_id ∧
    (∀ w ∈ hist, w.kind = WriteKind.resetPub → w.slot.frame_id = 0) := by
  have h := runFrames_aux inputs initProd s2 hist heq (by decide)
  refine ⟨?_, h.2.2.2.2.2.1⟩
  have hf := h.2.2.2.2.2.2
  simpa [initProd, Capturer.init] using hf

/-- C2 witness: the demonstration run publishes frame versions exactly
[1, 2] and its reset publications carry 0. -/
theorem c2_frame_publication_versions_witness :
    (([⟨WriteKind.resetPub, ⟨some 1, 100, 100, 0, []⟩⟩,
       ⟨WriteKind.framePub, ⟨some 1, 100, 100, 1, []⟩⟩,
       ⟨WriteKind.resetPub, ⟨some 2, 200, 150, 0, []⟩⟩,
       ⟨WriteKind.framePub, ⟨some 2, 200, 150, 2, []⟩⟩] :
        List SlotWrite).filter SlotWrite.isFramePub).map (fun w => w.slot.frame_id) =
      List.range' 1 2 ∧
    (∀ w ∈ ([⟨WriteKind.resetPub, ⟨some 1, 100, 100, 0, []⟩⟩,
       ⟨WriteKind.framePub, ⟨some 1, 100, 100, 1, []⟩⟩,
       ⟨WriteKind.resetPub, ⟨some 2, 200, 150, 0, []⟩⟩,
       ⟨WriteKind.framePub, ⟨some 2, 200, 150, 2, []⟩⟩] : List SlotWrite),
       w.kind = WriteKind.resetPub → w.slot.frame_id = 0) :=
  c2_frame_publication_versions demoFrames
    ⟨⟨3, some ⟨2, 200, 150, DXGIFormat.B8G8R8A8Unorm⟩, some ⟨1, none⟩, (200, 150), 2⟩,
     ⟨some 2, 200, 150, 2, []⟩⟩
    [⟨WriteKind.resetPub, ⟨some 1, 100, 100, 0, []⟩⟩,
     ⟨WriteKind.framePub, ⟨some 1, 100, 100, 1, []⟩⟩,
     ⟨WriteKind.resetPub, ⟨some 2, 200, 150, 0, []⟩⟩,
     ⟨WriteKind.framePub, ⟨some 2, 200, 150, 2, []⟩⟩]
    (by decide)

/-
Claim C9: the zero-copy alternation invariant.
-/

theorem kmLookup_kmSet_self (ms : List (Nat × KeyedMutex)) (id : Nat)
    (km km0 : KeyedMutex) (h : kmLookup ms id = some km0) :
    kmLookup (kmSet ms id km) id = some km := by
  induction ms with
  | nil => simp [kmLookup] at h
  | cons p ps ih =>
    by_cases hp : p.1 = id
    · simp [kmLookup, kmSet, hp]
    · simp only [kmLookup, kmSet, if_neg hp] at h ⊢
      exact ih h

theorem kmLookup_kmSet_ne (ms : List (Nat × KeyedMutex)) (id id' : Nat)
    (km : KeyedMutex) (h : id' ≠ id) :
    kmLookup (kmSet ms id km) id' = kmLookup ms id' := by
  induction ms with
  | nil => simp [kmLookup, kmSet]
  | cons p ps ih =>
    by_cases hp : p.1 = id
    · simp only [kmSet, if_pos hp, kmLookup]
      rw [if_neg (by omega), if_neg (by omega), ih]
    · simp only [kmSet, if_neg hp, kmLookup]
      by_cases hp' : p.1 = id'
      · rw [if_pos hp', if_pos hp']
      · rw [if_neg hp', if_neg hp', ih]

theorem kmSet_keys (ms : List (Nat × KeyedMutex)) (id : Nat) (km : KeyedMutex) :
    ∀ p ∈ kmSet ms id km, ∃ q ∈ ms, p.1 = q.1 := by
  induction ms with
  | nil => simp [kmSet]
  | cons p0 ps ih =>
    intro p hp
    by_cases h0 : p0.1 = id
    · simp only [kmSet, if_pos h0, List.mem_cons] at hp
      rcases hp with hp | hp
      · exact ⟨p0, List.mem_cons_self _ _, by rw [hp, h0]⟩
      · obtain ⟨q, hq, hqe⟩ := ih p hp
        exact ⟨q, List.mem_cons_of_mem _ hq, hqe⟩
    · simp only [kmSet, if_neg h0, List.mem_cons] at hp
      rcases hp with hp | hp
      · exact ⟨p0, List.mem_cons_self _ _, by rw [hp]⟩
      · obtain ⟨q, hq, hqe⟩ := ih p hp
        exact ⟨q, List.mem_cons_of_mem _ hq, hqe⟩

theorem kmLookup_cons_ne (p : Nat × KeyedMutex) (ms : List (Nat × KeyedMutex))
    (id : Nat) (h : p.1 ≠ id) : kmLookup (p :: ms) id = kmLookup ms id := by
  simp only [kmLookup, if_neg h]

/-- A successful acquireSync determines the resulting mutex state and
requires the mutex to be free with the matching pending key. -/
theorem acquireSync_ok (km km1 : KeyedMutex) (s : Side) (key : Nat)
    (h : km.acquireSync s key = some km1) :
    km.holder = none ∧ km.pending = key ∧ km1 = ⟨key, some s⟩ := by
  unfold KeyedMutex.acquireSync at h
  split at h
  · rename_i hc
    exact ⟨hc.1, hc.2, by injection h with h; rw [← h]⟩
  · exact absurd h (by simp)

/-- Changing only the producer control point (to anything but the holding
phase) preserves the invariant. -/
theorem zinv_set_pphase (w : ZWorld) (p : PPhase) (hinv : ZInv w)
    (hp : p ≠ PPhase.hold) : ZInv { w with pphase := p } := by
  obtain ⟨I1, I2, I3, I4, _, I6, I7, I8⟩ := hinv
  exact ⟨I1, I2, I3, I4, fun h => absurd h hp, I6, I7, I8⟩

/-- Changing the producer control point (to anything but the holding phase)
and logging a well-formed mutex operation preserves the invariant. -/
theorem zinv_set_pphase_log (w : ZWorld) (p : PPhase) (e : MutexOp) (hinv : ZInv w)
    (hp : p ≠ PPhase.hold) (he : mutexOpOk e) :
    ZInv { w with pphase := p, log := w.log ++ [e] } := by
  obtain ⟨I1, I2, I3, I4, _, I6, I7, I8⟩ := hinv
  refine ⟨I1, I2, I3, I4, fun h => absurd h hp, I6, I7, ?_⟩
  intro x hx
  rcases List.mem_append.mp hx with hx | hx
  · exact I8 x hx
  · rw [List.mem_singleton.mp hx]
    exact he

/-- Changing only the consumer control point (to anything but the holding
phase) preserves the invariant. -/
theorem zinv_set_cphase (w : ZWorld) (cp : CPhase) (hinv : ZInv w)
    (hc : ∀ fid, cp ≠ CPhase.hold fid) : ZInv { w with cphase := cp } := by
  obtain ⟨I1, I2, I3, I4, I5, _, I7, I8⟩ := hinv
  exact ⟨I1, I2, I3, I4, I5, fun fid h => absurd h (hc fid), I7, I8⟩

/-- Changing the consumer control point (to anything but the holding phase)
and logging a well-formed mutex operation preserves the invariant. -/
theorem zinv_set_cphase_log (w : ZWorld) (cp : CPhase) (e : MutexOp) (hinv : ZInv w)
    (hc : ∀ fid, cp ≠ CPhase.hold fid) (he : mutexOpOk e) :
    ZInv { w with cphase := cp, log := w.log ++ [e] } := by
  obtain ⟨I1, I2, I3, I4, I5, _, I7, I8⟩ := hinv
  refine ⟨I1, I2, I3, I4, I5, fun fid h => absurd h (hc fid), I7, ?_⟩
  intro x hx
  rcases List.mem_append.mp hx with hx | hx
  · exact I8 x hx
  · rw [List.mem_singleton.mp hx]
    exact he

/-- The resolution-change step of the producer (allocate texture and fresh
mutex, publish handle and size with frame counter 0) preserves the
invariant. -/
theorem zinv_ensure_recreate (w : ZWorld) (f : Frame) (hinv : ZInv w) :
    ZInv ⟨⟨w.cap.next_texture_id + 1,
           some ⟨w.cap.next_texture_id, f.width, f.height,
             dxgi_format_from_color f.color_format⟩,
           some w.cap.next_texture_id, (f.width, f.height), w.cap.current_frame_id⟩,
          ⟨some w.cap.next_texture_id, f.width, f.height, 0, w.slot.buffer⟩,
          ⟨w.cap.next_texture_id, f.width, f.height,
            dxgi_format_from_color f.color_format⟩ :: w.textures,
          (w.cap.next_texture_id, KeyedMutex.fresh) :: w.mutexes,
          PPhase.acq, w.cphase, w.cons, w.log⟩ := by
  obtain ⟨I1, I2, I3, I4, _, I6, _, I8⟩ := hinv
  refine ⟨?_, ?_, ?_, ?_, ?_, ?_, ?_, I8⟩
  · intro p hp
    rcases List.mem_cons.mp hp with hp | hp
    · rw [hp]
      exact Nat.lt_succ_self _
    · exact Nat.lt_succ_of_lt (I1 p hp)
  · intro id hid
    injection hid with hid
    show id < w.cap.next_texture_id + 1
    omega
  · intro id hid
    exact Nat.lt_succ_of_lt (I3 id hid)
  · intro id hid
    injection hid with hid
    show id < w.cap.next_texture_id + 1
    omega
  · intro h
    exact absurd h (by simp)
  · intro fid hc
    obtain ⟨id, km, hb, hl, hh⟩ := I6 fid hc
    refine ⟨id, km, hb, ?_, hh⟩
    rw [kmLookup_cons_ne]
    · exact hl
    · have := I3 id hb
      simp only []
      omega
  · intro id hid
    injection hid with hid
    exact ⟨⟨w.cap.next_texture_id, f.width, f.height, dxgi_format_from_color f.color_format⟩,
      List.mem_cons_self _ _, hid, rfl, rfl⟩

/-- A successful producer AcquireSync(0, 0) preserves the invariant: the
mutex was free, so in particular the consumer was not holding it. -/
theorem zinv_producer_acquire (w : ZWorld) (id : Nat) (km km1 : KeyedMutex)
    (hinv : ZInv w) (hmid : w.cap.shared_mutex_id = some id)
    (hlk : kmLookup w.mutexes id = some km)
    (hacq : km.acquireSync Side.producer 0 = some km1) :
    ZInv ⟨w.cap, w.slot, w.textures, kmSet w.mutexes id km1, PPhase.hold, w.cphase, w.cons,
          w.log ++ [⟨Side.producer, true, 0⟩]⟩ := by
  obtain ⟨I1, I2, I3, I4, _, I6, I7, I8⟩ := hinv
  obtain ⟨hfree, hpend, hkm1⟩ := acquireSync_ok km km1 _ _ hacq
  refine ⟨?_, I2, I3, I4, ?_, ?_, I7, ?_⟩
  · intro p hp
    obtain ⟨q, hq, hqe⟩ := kmSet_keys w.mutexes id km1 p hp
    rw [hqe]
    exact I1 q hq
  · intro _
    exact ⟨id, km1, hmid, kmLookup_kmSet_self _ _ _ km hlk, by rw [hkm1]⟩
  · intro fid hc
    obtain ⟨id', km', hb, hl, hh⟩ := I6 fid hc
    by_cases hee : id' = id
    · subst hee
      rw [hl] at hlk
      injection hlk with he
      rw [he, hfree] at hh
      exact absurd hh (by simp)
    · exact ⟨id', km', hb, by rw [kmLookup_kmSet_ne _ _ _ _ hee]; exact hl, hh⟩
  · intro x hx
    rcases List.mem_append.mp hx with hx | hx
    · exact I8 x hx
    · rw [List.mem_singleton.mp hx]
      exact Or.inl ⟨rfl, rfl, rfl⟩

/-- The producer ReleaseSync(1) (together with the GPU copy before it)
preserves the invariant. -/
theorem zinv_producer_release (w : ZWorld) (id : Nat) (km : KeyedMutex)
    (hinv : ZInv w) (hp : w.pphase = PPhase.hold)
    (hmid : w.cap.shared_mutex_id = some id)
    (hlk : kmLookup w.mutexes id = some km) :
    ZInv ⟨w.cap, w.slot, w.textures, kmSet w.mutexes id (km.releaseSync 1), PPhase.pub,
          w.cphase, w.cons, w.log ++ [⟨Side.producer, false, 1⟩]⟩ := by
  obtain ⟨I1, I2, I3, I4, I5, I6, I7, I8⟩ := hinv
  refine ⟨?_, I2, I3, I4, ?_, ?_, I7, ?_⟩
  · intro p hp2
    obtain ⟨q, hq, hqe⟩ := kmSet_keys w.mutexes id (km.releaseSync 1) p hp2
    rw [hqe]
    exact I1 q hq
  · intro h
    exact absurd h (by simp)
  · intro fid hc
    obtain ⟨id', km', hb, hl, hh⟩ := I6 fid hc
    by_cases hee : id' = id
    · subst hee
      obtain ⟨id2, km2, hmid2, hlk2, hh2⟩ := I5 hp
      rw [hmid] at hmid2
      injection hmid2 with hid2
      rw [← hid2] at hlk2
      rw [hlk2] at hl
      injection hl with he
      rw [← he, hh2] at hh
      exact absurd hh (by simp)
    · exact ⟨id', km', hb, by rw [kmLookup_kmSet_ne _ _ _ _ hee]; exact hl, hh⟩
  · intro x hx
    rcases List.mem_append.mp hx with hx | hx
    · exact I8 x hx
    · rw [List.mem_singleton.mp hx]
      exact Or.inr (Or.inl ⟨rfl, rfl, rfl⟩)

/-- The producer frame_id publication preserves the invariant: handle,
dimensions, textures and mutexes are untouched. -/
theorem zinv_producer_pub (w : ZWorld) (hinv : ZInv w) :
    ZInv ⟨⟨w.cap.next_texture_id, w.cap.shared_texture, w.cap.shared_mutex_id,
           w.cap.shared_size, w.cap.current_frame_id + 1⟩,
          ⟨w.slot.handle, w.slot.width, w.slot.height, w.cap.current_frame_id + 1,
           w.slot.buffer⟩,
          w.textures, w.mutexes, PPhase.idle, w.cphase, w.cons, w.log⟩ := by
  obtain ⟨I1, I2, I3, I4, _, I6, I7, I8⟩ := hinv
  refine ⟨I1, I2, I3, I4, ?_, I6, ?_, I8⟩
  · intro h
    exact absurd h (by simp)
  · intro id hid
    exact I7 id hid

/-- The consumer read step with a rebind (import of the published handle
and its dimensions) preserves the invariant. -/
theorem zinv_consumer_rebind (w : ZWorld) (h : Nat) (hinv : ZInv w)
    (hsh : w.slot.handle = some h) :
    ZInv ⟨w.cap, w.slot, w.textures, w.mutexes, w.pphase, CPhase.acq w.slot.frame_id,
          ⟨w.cons.last_frame_id, some h, (w.slot.width, w.slot.height)⟩, w.log⟩ := by
  obtain ⟨I1, I2, I3, I4, I5, _, I7, I8⟩ := hinv
  refine ⟨I1, I2, ?_, I4, I5, ?_, I7, I8⟩
  · intro id hid
    injection hid with hid
    rw [← hid]
    exact I2 h hsh
  · intro fid hc
    exact absurd hc (by simp)

/-- A successful consumer AcquireSync(1, 0) preserves the invariant: the
mutex was free, so in particular the producer was not holding it. -/
theorem zinv_consumer_acquire (w : ZWorld) (fid : Nat) (id : Nat) (km km1 : KeyedMutex)
    (hinv : ZInv w) (hb : w.cons.bound_handle = some id)
    (hlk : kmLookup w.mutexes id = some km)
    (hacq : km.acquireSync Side.consumer 1 = some km1) :
    ZInv ⟨w.cap, w.slot, w.textures, kmSet w.mutexes id km1, w.pphase, CPhase.hold fid,
          w.cons, w.log ++ [⟨Side.consumer, true, 1⟩]⟩ := by
  obtain ⟨I1, I2, I3, I4, I5, _, I7, I8⟩ := hinv
  obtain ⟨hfree, hpend, hkm1⟩ := acquireSync_ok km km1 _ _ hacq
  refine ⟨?_, I2, I3, I4, ?_, ?_, I7, ?_⟩
  · intro p hp
    obtain ⟨q, hq, hqe⟩ := kmSet_keys w.mutexes id km1 p hp
    rw [hqe]
    exact I1 q hq
  · intro hph
    obtain ⟨id2, km2, hmid2, hlk2, hh2⟩ := I5 hph
    by_cases hee : id2 = id
    · subst hee
      rw [hlk2] at hlk
      injection hlk with he
      rw [he, hfree] at hh2
      exact absurd hh2 (by simp)
    · exact ⟨id2, km2, hmid2, by rw [kmLookup_kmSet_ne _ _ _ _ hee]; exact hlk2, hh2⟩
  · intro fid2 _
    exact ⟨id, km1, hb, kmLookup_kmSet_self _ _ _ km hlk, by rw [hkm1]⟩
  · intro x hx
    rcases List.mem_append.mp hx with hx | hx
    · exact I8 x hx
    · rw [List.mem_singleton.mp hx]
      exact Or.inr (Or.inr (Or.inl ⟨rfl, rfl, rfl⟩))

/-- The consumer draw, ReleaseSync(0) and version update preserve the
invariant. -/
theorem zinv_consumer_release (w : ZWorld) (fid : Nat) (id : Nat) (km : KeyedMutex)
    (hinv : ZInv w) (hcp : w.cphase = CPhase.hold fid)
    (hb : w.cons.bound_handle = some id)
    (hlk : kmLookup w.mutexes id = some km) :
    ZInv ⟨w.cap, w.slot, w.textures, kmSet w.mutexes id (km.releaseSync 0), w.pphase,
          CPhase.idle, ⟨fid, some id, w.cons.bound_size⟩,
          w.log ++ [⟨Side.consumer, false, 0⟩]⟩ := by
  obtain ⟨I1, I2, I3, I4, I5, I6, I7, I8⟩ := hinv
  refine ⟨?_, I2, ?_, I4, ?_, ?_, I7, ?_⟩
  · intro p hp2
    obtain ⟨q, hq, hqe⟩ := kmSet_keys w.mutexes id (km.releaseSync 0) p hp2
    rw [hqe]
    exact I1 q hq
  · intro id2 hid2
    injection hid2 with hid2
    rw [← hid2]
    exact I3 id hb
  · intro hph
    obtain ⟨id2, km2, hmid2, hlk2, hh2⟩ := I5 hph
    by_cases hee : id2 = id
    · subst hee
      obtain ⟨id', km', hb', hl', hh'⟩ := I6 fid hcp
      rw [hb] at hb'
      injection hb' with hb'
      rw [← hb'] at hl'
      rw [hlk2] at hl'
      injection hl' with he
      rw [← he, hh2] at hh'
      exact absurd hh' (by simp)
    · exact ⟨id2, km2, hmid2, by rw [kmLookup_kmSet_ne _ _ _ _ hee]; exact hlk2, hh2⟩
  · intro fid2 hc2
    exact absurd hc2 (by simp)
  · intro x hx
    rcases List.mem_append.mp hx with hx | hx
    · exact I8 x hx
    · rw [List.mem_singleton.mp hx]
      exact Or.inr (Or.inr (Or.inr ⟨rfl, rfl, rfl⟩))

/-- Every scheduled event preserves the zero-copy invariant. -/
theorem zStep_preserves (w : ZWorld) (e : ZEv) (hinv : ZInv w) : ZInv (zStep w e) := by
  cases e with
  | frame f co =>
    by_cases hp : w.pphase = PPhase.idle
    · simp only [zStep, if_pos hp]
      exact zinv_set_pphase w _ hinv (by simp)
    · simp only [zStep, if_neg hp]
      exact hinv
  | tick =>
    by_cases hc : w.cphase = CPhase.idle
    · simp only [zStep, if_pos hc]
      exact zinv_set_cphase w _ hinv (by simp)
    · simp only [zStep, if_neg hc]
      exact hinv
  | pstep =>
    show ZInv (zProducerStep w)
    cases hp : w.pphase with
    | idle =>
      simpa only [zProducerStep, hp] using hinv
    | ensure f co =>
      by_cases hs : (w.cap.shared_texture.isSome ∧ w.cap.shared_size = (f.width, f.height))
      · simp only [zProducerStep, hp, if_pos hs]
        exact zinv_set_pphase w _ hinv (by simp)
      · cases co with
        | false =>
          simp only [zProducerStep, hp, if_neg hs, Bool.false_eq_true, if_false]
          exact zinv_set_pphase w _ hinv (by simp)
        | true =>
          simp only [zProducerStep, hp, if_neg hs, if_true]
          exact zinv_ensure_recreate w f hinv
    | acq =>
      cases hmid : w.cap.shared_mutex_id with
      | none =>
        simp only [zProducerStep, hp, hmid]
        exact zinv_set_pphase w _ hinv (by simp)
      | some id =>
        cases hlk : kmLookup w.mutexes id with
        | none =>
          simp only [zProducerStep, hp, hmid, hlk]
          exact zinv_set_pphase w _ hinv (by simp)
        | some km =>
          cases hacq : km.acquireSync .producer 0 with
          | none =>
            simp only [zProducerStep, hp, hmid, hlk, hacq]
            exact zinv_set_pphase_log w _ _ hinv (by simp) (Or.inl ⟨rfl, rfl, rfl⟩)
          | some km1 =>
            simp only [zProducerStep, hp, hmid, hlk, hacq]
            exact zinv_producer_acquire w id km km1 hinv hmid hlk hacq
    | hold =>
      cases hmid : w.cap.shared_mutex_id with
      | none =>
        simp only [zProducerStep, hp, hmid]
        exact zinv_set_pphase w _ hinv (by simp)
      | some id =>
        cases hlk : kmLookup w.mutexes id with
        | none =>
          simp only [zProducerStep, hp, hmid, hlk]
          exact zinv_set_pphase w _ hinv (by simp)
        | some km =>
          simp only [zProducerStep, hp, hmid, hlk]
          exact zinv_producer_release w id km hinv hp hmid hlk
    | pub =>
      simp only [zProducerStep, hp]
      exact zinv_producer_pub w hinv
  | cstep =>
    show ZInv (zConsumerStep w)
    cases hc : w.cphase with
    | idle =>
      simpa only [zConsumerStep, hc] using hinv
    | read =>
      cases hsh : w.slot.handle with
      | none =>
        simp only [zConsumerStep, hc, hsh]
        exact zinv_set_cphase w _ hinv (by simp)
      | some h =>
        by_cases hfe : w.slot.frame_id = w.cons.last_frame_id
        · simp only [zConsumerStep, hc, hsh, if_pos hfe]
          exact zinv_set_cphase w _ hinv (by simp)
        · by_cases hrb : (w.cons.bound_handle ≠ some h ∨
              w.cons.bound_size ≠ (w.slot.width, w.slot.height))
          · simp only [zConsumerStep, hc, hsh, if_neg hfe, if_pos hrb]
            exact zinv_consumer_rebind w h hinv hsh
          · simp only [zConsumerStep, hc, hsh, if_neg hfe, if_neg hrb]
            exact zinv_set_cphase w _ hinv (by simp)
    | acq fid =>
      cases hb : w.cons.bound_handle with
      | none =>
        simp only [zConsumerStep, hc, hb]
        exact zinv_set_cphase w _ hinv (by simp)
      | some id =>
        cases hlk : kmLookup w.mutexes id with
        | none =>
          simp only [zConsumerStep, hc, hb, hlk]
          exact zinv_set_cphase w _ hinv (by simp)
        | some km =>
          cases hacq : km.acquireSync .consumer 1 with
          | none =>
            simp only [zConsumerStep, hc, hb, hlk, hacq]
            exact zinv_set_cphase_log w _ _ hinv (by simp)
              (Or.inr (Or.inr (Or.inl ⟨rfl, rfl, rfl⟩)))
          | some km1 =>
            simp only [zConsumerStep, hc, hb, hlk, hacq]
            exact zinv_consumer_acquire w fid id km km1 hinv hb hlk hacq
    | hold fid =>
      cases hb : w.cons.bound_handle with
      | none =>
        simp only [zConsumerStep, hc, hb]
        exact zinv_set_cphase w _ hinv (by simp)
      | some id =>
        cases hlk : kmLookup w.mutexes id with
        | none =>
          simp only [zConsumerStep, hc, hb, hlk]
          exact zinv_set_cphase w _ hinv (by simp)
        | some km =>
          simp only [zConsumerStep, hc, hb, hlk]
          exact zinv_consumer_release w fid id km hinv hc hb hlk

/-- The invariant holds at startup and therefore after every schedule. -/
theorem zRun_inv (evs : List ZEv) : ZInv (zRun evs) := by
  have hgen : ∀ (l : List ZEv) (w : ZWorld), ZInv w → ZInv (l.foldl zStep w) := by
    intro l
    induction l with
    | nil =>
      intro w hw
      exact hw
    | cons e rest ih =>
      intro w hw
      exact ih (zStep w e) (zStep_preserves w e hw)
  refine hgen evs zInit ?_
  refine ⟨?_, ?_, ?_, ?_, ?_, ?_, ?_, ?_⟩
  · intro p hp
    simp [zInit] at hp
  · intro id hid
    simp [zInit, slotInit] at hid
  · intro id hid
    simp [zInit] at hid
  · intro id hid
    simp [zInit] at hid
  · intro h
    simp [zInit] at h
  · intro fid h
    simp [zInit] at h
  · intro id hid
    simp [zInit, slotInit] at hid
  · intro e he
    simp [zInit] at he

/-- C9: alternation in the zero-copy strategy. Across every schedule of
fine-grained producer and consumer steps, (1) the keyed mutex of any shared
texture is never held by both sides at once, (2) every logged mutex call
obeys the key discipline — the producer acquires with key 0 and releases
with key 1, the consumer acquires with key 1 and releases with key 0 on
each tick it draws — and (3) the slot never holds a handle whose allocated
texture dimensions mismatch the published width and height, in particular
after any failed non-blocking acquisition. -/
theorem c9_alternation (evs : List ZEv) :
    (∀ id, ¬(pHolds (zRun evs) id ∧ cHolds (zRun evs) id)) ∧
    (∀ e ∈ (zRun evs).log, mutexOpOk e) ∧
    slotSizeConsistent (zRun evs) := by
  obtain ⟨I1, I2, I3, I4, I5, I6, I7, I8⟩ := zRun_inv evs
  refine ⟨?_, I8, I7⟩
  rintro id ⟨⟨hph, hmid⟩, ⟨fid, hcp⟩, hb⟩
  obtain ⟨id2, km2, hmid2, hlk2, hh2⟩ := I5 hph
  obtain ⟨id', km', hb', hl', hh'⟩ := I6 fid hcp
  rw [hmid] at hmid2
  injection hmid2 with hid2
  rw [hb] at hb'
  injection hb' with hid'
  rw [← hid2] at hlk2
  rw [← hid'] at hl'
  rw [hlk2] at hl'
  injection hl' with he
  rw [← he, hh2] at hh'
  exact absurd hh' (by simp)

/-- C9 witness: after the demonstration schedule the two sides do not both
hold the mutex of texture 1. -/
theorem c9_alternation_witness :
    ¬(pHolds (zRun demoSchedule) 1 ∧ cHolds (zRun demoSchedule) 1) :=
  (c9_alternation demoSchedule).1 1
